import Mathlib

/-!
# Pipelines-as-code: event-to-run orchestration

A shallow embedding of `pkg/pipelineascode/pipelineascode.go` (`getRepoByCR`, `Run`)
and of `pkg/cmd/pipelineascode/pipelineascode.go` (`getPayloadFromFile`, `runWrap`).

Go values are embedded as follows.

* A Go `error` is embedded by its message (`Err := String`); a possibly-nil error is
  `Option Err` (`none` is `nil`).
* A Go `(T, error)` result that the caller only uses after checking `err != nil` is
  `Except Err T`; `getRepoByCR` keeps the pair, since it returns the zero value next to
  the error.
* Clients (GitHub / provider, Tekton, Kubernetes, the Repository registry) and the
  repository functions that are not part of the two files are fields of a `World`
  record: one deterministic response per call, as a function of the call arguments.
* Every client call `Run` performs is recorded, in program order, in a trace of `Call`s.
-/

namespace PipelinesAsCode

/-! ## Data model -/

/-- A Go error, embedded by its `Error()` text. -/
abbrev Err := String

/-- The `apipac.RepositorySpec` fields read by the code. -/
structure RepositorySpec where
  Namespace : String
  URL : String
  Branch : String
deriving DecidableEq

/-- The record `apipac.RepositoryRunStatus` appended to a registration history. -/
structure RepositoryRunStatus where
  Status : String
  PipelineRunName : String
  StartTime : Option Nat
  CompletionTime : Option Nat
deriving DecidableEq

/-- The registration `apipac.Repository`: object metadata (`Name`, `Namespace`), the
spec and the run history (`Status`). -/
structure Repository where
  Name : String
  Namespace : String
  Spec : RepositorySpec
  Status : List RepositoryRunStatus
deriving DecidableEq

/-- The Go zero value `var repository apipac.Repository`. -/
def Repository.zero : Repository :=
  { Name := "", Namespace := "", Spec := { Namespace := "", URL := "", Branch := "" },
    Status := [] }

/-- The fields of `webvcs.RunInfo` read or written by `Run`. -/
structure RunInfo where
  Owner : String
  Repository : String
  SHA : String
  Sender : String
  BaseBranch : String
  URL : String
  CheckRunID : Option Int
deriving DecidableEq

/-- The result of `processTektonYaml`. -/
structure TektonYamlConfig where
  Namespace : String
  RemoteTasks : String
deriving DecidableEq

/-- The Go zero value `var maintekton TektonYamlConfig`. -/
def TektonYamlConfig.zero : TektonYamlConfig := { Namespace := "", RemoteTasks := "" }

/-- A file handle of the `.tekton` directory listing (`GetName`, `GetSHA`). -/
structure TreeEntry where
  Name : String
  SHA : String
deriving DecidableEq

/-- The fields of a Tekton `PipelineRun` the code touches; `Body` stands for the rest. -/
structure PipelineRun where
  Name : String
  Labels : List (String × String)
  Body : String
  Status : String
  StartTime : Option Nat
  CompletionTime : Option Nat
deriving DecidableEq

/-! ## Constants -/

def tektonDir : String := ".tekton"

def tektonConfigurationFile : String := "tekton.yaml"

def maxPipelineRunStatusRun : Nat := 5

/-- The Go `filepath.Join(tektonDir, tektonConfigurationFile)` of two clean, non-empty
elements. -/
def tektonConfigurationPath : String := tektonDir ++ "/" ++ tektonConfigurationFile

/-! ## Go slice primitives -/

/-- The Go builtin `copy(dst, src)`: the first `min (len dst) (len src)` elements of
`src` overwrite the head of `dst` (overlap is handled as by `memmove`), the rest of
`dst` is unchanged. -/
def goCopy {α : Type} (dst src : List α) : List α :=
  src.take (min dst.length src.length) ++ dst.drop (min dst.length src.length)

/-- The history update of `Run` (lines 243-248):
```
if len(lastrepo.Status) >= maxPipelineRunStatusRun {
    copy(lastrepo.Status, lastrepo.Status[len(lastrepo.Status)-maxPipelineRunStatusRun+1:])
    lastrepo.Status = lastrepo.Status[:maxPipelineRunStatusRun-1]
}
lastrepo.Status = append(lastrepo.Status, repoStatus)
```
-/
def appendRunStatus {α : Type} (status : List α) (repoStatus : α) : List α :=
  let status :=
    if status.length ≥ maxPipelineRunStatusRun then
      (goCopy status (status.drop (status.length - maxPipelineRunStatusRun + 1))).take
        (maxPipelineRunStatusRun - 1)
    else status
  status ++ [repoStatus]

/-! ## Repository registration matcher -/

/-- The policy-violation error of `getRepoByCR` (line 39): `fmt.Errorf` with one `%s`. -/
def policyViolation (forceNamespace : String) : Err :=
  "repo CR matches but should be installed in " ++ forceNamespace ++
    " as configured from tekton.yaml on the main branch"

/-- The security-violation error of `getRepoByCR` (line 47): `fmt.Errorf` with three `%s`. -/
def securityViolation (value : Repository) : Err :=
  "repo CR " ++ value.Name ++ " matches but belongs to " ++ value.Namespace ++
    " while it should be in " ++ value.Spec.Namespace

/-- The loop of `getRepoByCR` over `repositories.Items` (lines 36-55). -/
def getRepoByCRItems (items : List Repository) (url branch forceNamespace : String) :
    Repository × Option Err :=
  match items with
  | [] => (Repository.zero, none)
  | value :: rest =>
    if value.Spec.URL = url ∧ value.Spec.Branch = branch then
      if forceNamespace ≠ "" ∧ value.Namespace ≠ forceNamespace then
        (Repository.zero, some (policyViolation forceNamespace))
      else if value.Namespace ≠ value.Spec.Namespace then
        (Repository.zero, some (securityViolation value))
      else (value, none)
    else getRepoByCRItems rest url branch forceNamespace

/-- The function `getRepoByCR`; `repositories` is the outcome of the registry call
`Repositories(...).List` over all namespaces. -/
def getRepoByCR (repositories : Except Err (List Repository))
    (url branch forceNamespace : String) : Repository × Option Err :=
  match repositories with
  | .error err => (Repository.zero, some err)
  | .ok items => getRepoByCRItems items url branch forceNamespace

/-- Whether a registration matches the event: `value.Spec.URL == url &&
value.Spec.Branch == branch`. -/
def matchesEvent (url branch : String) (value : Repository) : Bool :=
  decide (value.Spec.URL = url ∧ value.Spec.Branch = branch)

/-! ## The orchestration pass `Run` -/

/-- The external collaborators of `Run`: the GitHub client, the Kubernetes interaction
(`k8int`), the Tekton client, the Repository registry, and the functions of this
repository that live outside the two embedded files (`aclCheck`, `processTektonYaml`,
`ReplacePlaceHoldersVariables`, `resolve.Resolve`, `config.MatchPipelinerunByAnnotation`,
`postFinalStatus`). Each field answers one call as a function of its arguments.
`getFileFromDefaultBranch` gives only the content: `Run` discards the error. -/
structure World where
  createCheckRun : String → RunInfo → Except Err (Option Int)
  aclCheck : RunInfo → Except Err Bool
  getFileFromDefaultBranch : String → RunInfo → String
  processTektonYaml : RunInfo → String → Except Err TektonYamlConfig
  listRepositories : Except Err (List Repository)
  createStatus : RunInfo → String → String → String → String → Option Err
  getTektonDir : String → RunInfo → Except Err (List TreeEntry)
  getNamespace : String → Option Err
  getObject : String → RunInfo → Except Err String
  concatAllYamlFiles : List TreeEntry → RunInfo → Except Err String
  replacePlaceHoldersVariables : String → List (String × String) → String
  resolve : String → Bool → Except Err (List PipelineRun)
  matchPipelinerunByAnnotation : List PipelineRun → RunInfo → Except Err PipelineRun
  createPipelineRun : String → PipelineRun → Except Err PipelineRun
  getConsoleUI : String → String → Except Err String
  tektonCliFollowLogs : String → String → Option Err
  postFinalStatus : RunInfo → String → String → Except Err PipelineRun
  getRepository : String → String → Except Err Repository
  updateRepository : String → Repository → Except Err Repository

/-- A call made by `Run` on one of its clients (and the call of `postFinalStatus`,
which reports the final status), with the arguments that identify it. -/
inductive Call where
  | createCheckRun (status : String)
  | getFileFromDefaultBranch (path : String)
  | listRepositories
  | createStatus (status conclusion text detailsURL : String)
  | getTektonDir (path : String)
  | getNamespace (ns : String)
  | getObject (sha : String)
  | concatAllYamlFiles (objects : List TreeEntry)
  | createPipelineRun (ns : String) (pipelineRun : PipelineRun)
  | getConsoleUI (ns name : String)
  | tektonCliFollowLogs (ns name : String)
  | postFinalStatus (name ns : String)
  | getRepository (ns name : String)
  | updateRepository (ns : String) (repo : Repository)
deriving DecidableEq

/-- What a pass of `Run` amounts to: the returned error (`none` is `nil`) and the calls
made, in program order. -/
structure Outcome where
  err : Option Err
  trace : List Call
deriving DecidableEq

/-- The statement `return err`. -/
def Outcome.ret (err : Option Err) : Outcome := { err := err, trace := [] }

/-- The call `c` followed by the rest of the pass. -/
def Outcome.after (c : Call) (rest : Outcome) : Outcome :=
  { err := rest.err, trace := c :: rest.trace }

/-- The calls `cs` followed by the rest of the pass. -/
def Outcome.afterAll (cs : List Call) (rest : Outcome) : Outcome :=
  { err := rest.err, trace := cs ++ rest.trace }

/-- Lines 84-92 of `Run`: the configuration of the default branch; the zero value
when the file is absent or empty. -/
def defaultBranchConfig (w : World) (runinfo : RunInfo) : Except Err TektonYamlConfig :=
  let maintektonyaml := w.getFileFromDefaultBranch tektonConfigurationPath runinfo
  if maintektonyaml ≠ "" then w.processTektonYaml runinfo maintektonyaml
  else .ok TektonYamlConfig.zero

/-- Lines 137-151 of `Run`: the loop over the directory listing that processes the
first file named `tekton.yaml` and breaks; the calls made and the resulting
`yamlConfig` (or the error returned). -/
def eventTektonYaml (w : World) (runinfo : RunInfo) :
    List TreeEntry → List Call × Except Err TektonYamlConfig
  | [] => ([], .ok TektonYamlConfig.zero)
  | file :: rest =>
    if file.Name = tektonConfigurationFile then
      match w.getObject file.SHA runinfo with
      | .error err => ([Call.getObject file.SHA], .error err)
      | .ok data => ([Call.getObject file.SHA], w.processTektonYaml runinfo data)
    else eventTektonYaml w runinfo rest

/-- The label map set on the selected pipeline run (lines 184-190). -/
def runLabels (runinfo : RunInfo) : List (String × String) :=
  [ ("tekton.dev/pipeline-ascode-owner", runinfo.Owner),
    ("tekton.dev/pipeline-ascode-repository", runinfo.Repository),
    ("tekton.dev/pipeline-ascode-sha", runinfo.SHA),
    ("tekton.dev/pipeline-ascode-sender", runinfo.Sender),
    ("tekton.dev/pipeline-ascode-branch", runinfo.BaseBranch) ]

/-- The text of the status posted when the sender is not allowed (line 78). -/
def notAllowedText (runinfo : RunInfo) : String :=
  "User " ++ runinfo.Sender ++ " is not allowed to run CI on this repo."

/-- The text of the first in-progress status (line 129). -/
def gettingConfigurationText (ns : String) : String :=
  "Getting pipelinerun configuration in namespace <b>" ++ ns ++ "</b>"

/-- The text of the second in-progress status (lines 207-208). -/
def startingPipelinerunText (name ns : String) : String :=
  "Starting Pipelinerun <b>" ++ name ++ "</b> in namespace <b>" ++ ns ++
    "</b><br><br>You can follow the execution on the command line with : " ++
    "<br><br><code>tkn pr logs -f -n " ++ ns ++ " " ++ name ++ "</code>"

/-- The function `Run` (lines 59-257). Logging calls are left out. -/
def Run (w : World) (runinfo0 : RunInfo) : Outcome :=
  -- Create first check run
  Outcome.after (Call.createCheckRun "in_progress") <|
  match w.createCheckRun "in_progress" runinfo0 with
  | .error err => Outcome.ret (some err)
  | .ok checkRunID =>
  let runinfo : RunInfo := { runinfo0 with CheckRunID := checkRunID }
  -- Check if submitted is allowed to run this
  match w.aclCheck runinfo with
  | .error err => Outcome.ret (some err)
  | .ok allowed =>
  if allowed = false then
    Outcome.after (Call.createStatus "completed" "skipped" (notAllowedText runinfo)
      "https://tenor.com/search/police-cat-gifs") <|
    Outcome.ret none
  else
  -- Checkout the tekton.yaml from the main/default branch
  Outcome.after (Call.getFileFromDefaultBranch tektonConfigurationPath) <|
  match defaultBranchConfig w runinfo with
  | .error err => Outcome.ret (some err)
  | .ok maintekton =>
  -- Match the Event to a Repository Resource
  Outcome.after Call.listRepositories <|
  match getRepoByCR w.listRepositories runinfo.URL runinfo.BaseBranch maintekton.Namespace with
  | (_, some err) => Outcome.ret (some err)
  | (repo, none) =>
  if repo.Spec.Namespace = "" then
    Outcome.after (Call.createStatus "completed" "skipped"
      "Could not find a configuration for this repository"
      "https://tenor.com/search/sad-cat-gifs") <|
    Outcome.ret none
  else
  -- Get everything in tekton directory
  Outcome.after (Call.getTektonDir tektonDir) <|
  match w.getTektonDir tektonDir runinfo with
  | .error err =>
    Outcome.after (Call.createStatus "completed" "skipped"
      "😿 Could not find a <b>.tekton/</b> directory for this repository"
      "https://tenor.com/search/sad-cat-gifs") <|
    Outcome.ret (some err)
  | .ok objects =>
  -- Make sure we have the namespace already created or error it
  Outcome.after (Call.getNamespace repo.Spec.Namespace) <|
  match w.getNamespace repo.Spec.Namespace with
  | some err => Outcome.ret (some err)
  | none =>
  -- Update status in UI
  Outcome.after (Call.createStatus "in_progress" ""
    (gettingConfigurationText repo.Spec.Namespace) "https://tenor.com/search/sad-cat-gifs") <|
  match w.createStatus runinfo "in_progress" ""
    (gettingConfigurationText repo.Spec.Namespace) "https://tenor.com/search/sad-cat-gifs" with
  | some err => Outcome.ret (some err)
  | none =>
  -- Process the tekton.yaml, we will get the extra tasks from there
  Outcome.afterAll (eventTektonYaml w runinfo objects).1 <|
  match (eventTektonYaml w runinfo objects).2 with
  | .error err => Outcome.ret (some err)
  | .ok yamlConfig =>
  -- Concat all yaml files as one multi document yaml string
  Outcome.after (Call.concatAllYamlFiles objects) <|
  match w.concatAllYamlFiles objects runinfo with
  | .error err => Outcome.ret (some err)
  | .ok allTemplates0 =>
  -- Replace the placeholders, then append the remote tasks
  let allTemplates1 := w.replacePlaceHoldersVariables allTemplates0
    [("revision", runinfo.SHA), ("repo_url", runinfo.URL)]
  let allTemplates :=
    if yamlConfig.RemoteTasks ≠ "" then allTemplates1 ++ yamlConfig.RemoteTasks
    else allTemplates1
  -- Merge everything as a single pipelinerun
  match w.resolve allTemplates true with
  | .error err => Outcome.ret (some err)
  | .ok pipelineRuns =>
  -- Match the pipelinerun with annotation
  match w.matchPipelinerunByAnnotation pipelineRuns runinfo with
  | .error err => Outcome.ret (some err)
  | .ok pipelineRun0 =>
  -- Add labels on the soon to be created pipelinerun
  let pipelineRun : PipelineRun := { pipelineRun0 with Labels := runLabels runinfo }
  -- Create the actual pipeline
  Outcome.after (Call.createPipelineRun repo.Spec.Namespace pipelineRun) <|
  match w.createPipelineRun repo.Spec.Namespace pipelineRun with
  | .error err => Outcome.ret (some err)
  | .ok pr =>
  -- Get the UI/webconsole URL for this pipeline, with a fallback
  Outcome.after (Call.getConsoleUI repo.Spec.Namespace pr.Name) <|
  let consoleURL :=
    match w.getConsoleUI repo.Spec.Namespace pr.Name with
    | .error _ => "https://giphy.com/explore/cat-exercise-wheel"
    | .ok url => url
  -- Create status with the log url
  Outcome.after (Call.createStatus "in_progress" ""
    (startingPipelinerunText pr.Name repo.Spec.Namespace) consoleURL) <|
  match w.createStatus runinfo "in_progress" ""
    (startingPipelinerunText pr.Name repo.Spec.Namespace) consoleURL with
  | some _ => Outcome.ret none
  | none =>
  -- Wait until the logs are finished
  Outcome.after (Call.tektonCliFollowLogs repo.Spec.Namespace pr.Name) <|
  match w.tektonCliFollowLogs repo.Spec.Namespace pr.Name with
  | some err => Outcome.ret (some err)
  | none =>
  -- Post the final status
  Outcome.after (Call.postFinalStatus pr.Name repo.Spec.Namespace) <|
  match w.postFinalStatus runinfo pr.Name repo.Spec.Namespace with
  | .error err => Outcome.ret (some err)
  | .ok newPr =>
  let repoStatus : RepositoryRunStatus :=
    { Status := newPr.Status, PipelineRunName := newPr.Name,
      StartTime := newPr.StartTime, CompletionTime := newPr.CompletionTime }
  -- Get repo again in case it was updated while we were running the CI
  Outcome.after (Call.getRepository repo.Spec.Namespace repo.Name) <|
  match w.getRepository repo.Spec.Namespace repo.Name with
  | .error err => Outcome.ret (some err)
  | .ok lastrepo0 =>
  -- Append pipelinerun status to the repo status
  let lastrepo : Repository :=
    { lastrepo0 with Status := appendRunStatus lastrepo0.Status repoStatus }
  Outcome.after (Call.updateRepository lastrepo.Namespace lastrepo) <|
  match w.updateRepository lastrepo.Namespace lastrepo with
  | .error err => Outcome.ret (some err)
  | .ok _ => Outcome.ret none

/-! ## The verb `%q` of `fmt.Sprintf`

`fmt` formats an `error` operand under `%q` as `strconv.Quote(err.Error())`. -/

/-- The double quote character (code point 34). -/
def dquote : Char := Char.ofNat 34

/-- The backslash character (code point 92). -/
def backslash : Char := Char.ofNat 92

/-- The lookup `lowerhex[n & 0xF]` of `strconv` (`lowerhex = "0123456789abcdef"`). -/
def lowerhex (n : Nat) : Char :=
  "0123456789abcdef".toList.getD (n % 16) '0'

/-- The function `strconv.IsPrint`: decided by ranges up to `0xFF`, by the Unicode
tables (the parameter `unicodePrint`) above. -/
def isPrint (unicodePrint : Char → Bool) (r : Char) : Bool :=
  if r.toNat ≤ 0xFF then
    if 0x20 ≤ r.toNat ∧ r.toNat ≤ 0x7E then true
    else if 0xA1 ≤ r.toNat ∧ r.toNat ≤ 0xFF then decide (r.toNat ≠ 0xAD)
    else false
  else unicodePrint r

/-- The function `appendEscapedRune` of `strconv`, as called by `Quote` (double quote as the
quote, `ASCIIonly` and `graphicOnly` false): the characters that render rune `r`. A `Char`
is always a valid rune, so the branch for invalid runes does not arise. -/
def appendEscapedRune (unicodePrint : Char → Bool) (r : Char) : List Char :=
  if r = dquote ∨ r = backslash then [backslash, r]
  else if isPrint unicodePrint r then [r]
  else if r.toNat = 7 then [backslash, 'a']
  else if r.toNat = 8 then [backslash, 'b']
  else if r.toNat = 12 then [backslash, 'f']
  else if r.toNat = 10 then [backslash, 'n']
  else if r.toNat = 13 then [backslash, 'r']
  else if r.toNat = 9 then [backslash, 't']
  else if r.toNat = 11 then [backslash, 'v']
  else if r.toNat < 0x20 ∨ r.toNat = 0x7F then
    [backslash, 'x', lowerhex (r.toNat >>> 4), lowerhex r.toNat]
  else if r.toNat < 0x10000 then
    backslash :: 'u' :: [12, 8, 4, 0].map (fun s => lowerhex (r.toNat >>> s))
  else
    backslash :: 'U' :: [28, 24, 20, 16, 12, 8, 4, 0].map (fun s => lowerhex (r.toNat >>> s))

/-- The function `strconv.Quote` on a string of valid UTF-8: a double-quoted Go string
literal. -/
def strconvQuote (unicodePrint : Char → Bool) (s : String) : String :=
  String.mk (dquote :: (s.toList.map (appendEscapedRune unicodePrint)).flatten ++ [dquote])

/-- Substring containment: the characters of `sub` occur contiguously in `text`. -/
def containsText (text sub : String) : Prop := sub.toList <:+: text.toList

instance (text sub : String) : Decidable (containsText text sub) :=
  inferInstanceAs (Decidable (sub.toList <:+: text.toList))

/-! ## The top-level handler `runWrap` -/

/-- The event produced by `ParsePayload` (the fields named in the command file). -/
structure Event where
  EventType : String
  TriggerTarget : String
deriving DecidableEq

/-- The record `provider.StatusOpts` passed to `CreateStatus`. -/
structure StatusOpts where
  Status : String
  Conclusion : String
  Text : String
  DetailsURL : String
deriving DecidableEq

/-- The inputs and collaborators of `runWrap`: the options (`ProviderToken`,
`PayloadFile`), the console URL, the file system (`os.Stat`, `ioutil.ReadFile`), the
provider (`SetClient`, `ParsePayload`, `CreateStatus`), the pass `pipelineascode.Run`
as called from this file, and the Unicode tables behind `%q`. -/
structure WrapWorld where
  ProviderToken : String
  PayloadFile : String
  consoleURL : String
  setClient : Option Err
  stat : String → Option Err
  readFile : String → String × Option Err
  parsePayload : String → Except Err Event
  run : Event → Option Err
  createStatus : Event → StatusOpts → Option Err
  unicodePrint : Char → Bool

/-- What `runWrap` amounts to: the returned error and the `CreateStatus` calls it
issued itself, in order. -/
structure WrapOutcome where
  err : Option Err
  statuses : List StatusOpts
deriving DecidableEq

/-- The function `getPayloadFromFile` (lines 64-75). -/
def getPayloadFromFile (w : WrapWorld) : String × Option Err :=
  if w.PayloadFile = "" then ("", some "no payload file has been passed")
  else
    match w.stat w.PayloadFile with
    | some err => ("", some err)
    | none => w.readFile w.PayloadFile

/-- The status `runWrap` reports for the error `err` of `Run` (lines 122-127). -/
def failureStatus (w : WrapWorld) (err : Err) : StatusOpts :=
  { Status := "completed",
    Conclusion := "failure",
    Text := "There was an issue validating the commit: " ++ strconvQuote w.unicodePrint err,
    DetailsURL := w.consoleURL }

/-- The function `runWrap` (lines 93-133). Logging calls are left out. -/
def runWrap (w : WrapWorld) : WrapOutcome :=
  match (if w.ProviderToken ≠ "" then w.setClient else none) with
  | some err => { err := some err, statuses := [] }
  | none =>
  match getPayloadFromFile w with
  | (_, some err) => { err := some err, statuses := [] }
  | (payload, none) =>
  match w.parsePayload payload with
  | .error err => { err := some err, statuses := [] }
  | .ok event =>
  match w.run event with
  | some err =>
    match w.createStatus event (failureStatus w err) with
    | some _createStatusErr => { err := some err, statuses := [failureStatus w err] }
    | none => { err := some err, statuses := [failureStatus w err] }
  | none => { err := none, statuses := [] }

/-- Whether `runWrap` reaches the call of `pipelineascode.Run`, and with which event:
the client is set when a token is given, the payload file is read and parsed. -/
def reachesRun (w : WrapWorld) (event : Event) : Prop :=
  (w.ProviderToken = "" ∨ w.setClient = none) ∧
  ∃ payload, getPayloadFromFile w = (payload, none) ∧ w.parsePayload payload = .ok event

/-! ## Concrete inputs -/

/-- A registration placed in the namespace it targets. -/
def repoApp : Repository :=
  { Name := "app", Namespace := "ns1",
    Spec := { Namespace := "ns1", URL := "https://git.example/org/app", Branch := "main" },
    Status := [] }

/-- A registration for another repository. -/
def repoOther : Repository :=
  { Name := "other", Namespace := "ns3",
    Spec := { Namespace := "ns3", URL := "https://git.example/org/other", Branch := "main" },
    Status := [] }

/-- A registration placed in `ns1` that targets `ns2`. -/
def repoHijack : Repository :=
  { Name := "hijack", Namespace := "ns1",
    Spec := { Namespace := "ns2", URL := "https://git.example/org/app", Branch := "main" },
    Status := [] }

/-- The Kubernetes not-found message for the namespace `ns1`: the word `namespaces`, the
name in double quotes, and `not found`. -/
def namespaceNotFound : Err :=
  "namespaces " ++ String.singleton dquote ++ "ns1" ++ String.singleton dquote ++ " not found"

/-- A handler run whose pass fails with `namespaceNotFound`. -/
def wrapWorldNotFound : WrapWorld :=
  { ProviderToken := "",
    PayloadFile := "payload.json",
    consoleURL := "https://console.example",
    setClient := none,
    stat := fun _ => none,
    readFile := fun _ => ("payload", none),
    parsePayload := fun _ => .ok { EventType := "pull_request", TriggerTarget := "pull_request" },
    run := fun _ => some namespaceNotFound,
    createStatus := fun _ _ => none,
    unicodePrint := fun _ => false }

/-- A handler run whose pass fails with `boom` and whose status report fails too. -/
def wrapWorldBoom : WrapWorld :=
  { wrapWorldNotFound with
    run := fun _ => some "boom",
    createStatus := fun _ _ => some "provider down" }

/-- Whether a call is a `CreateStatus` call. -/
def Call.isCreateStatus : Call → Bool
  | Call.createStatus _ _ _ _ => true
  | _ => false

/-- The event of the scenarios: a pull request on `org/app`, base branch `main`. -/
def runinfoPR : RunInfo :=
  { Owner := "org", Repository := "app", SHA := "abc123", Sender := "alice",
    BaseBranch := "main", URL := "https://git.example/org/app", CheckRunID := none }

/-- A resolved run candidate that declares a label of its own. -/
def candidate : PipelineRun :=
  { Name := "", Labels := [("app", "demo")], Body := "spec", Status := "",
    StartTime := none, CompletionTime := none }

/-- A world in which every step of the pass succeeds, apart from the console URL. -/
def worldOk : World :=
  { createCheckRun := fun _ _ => .ok (some 1),
    aclCheck := fun _ => .ok true,
    getFileFromDefaultBranch := fun _ _ => "",
    processTektonYaml := fun _ _ => .ok TektonYamlConfig.zero,
    listRepositories := .ok [repoOther, repoApp],
    createStatus := fun _ _ _ _ _ => none,
    getTektonDir := fun _ _ => .ok [{ Name := "pipelinerun.yaml", SHA := "f00" }],
    getNamespace := fun _ => none,
    getObject := fun _ _ => .ok "",
    concatAllYamlFiles := fun _ _ => .ok "kind: PipelineRun",
    replacePlaceHoldersVariables := fun s _ => s,
    resolve := fun _ _ => .ok [candidate],
    matchPipelinerunByAnnotation := fun _ _ => .ok candidate,
    createPipelineRun := fun _ pr => .ok { pr with Name := "app-run-1" },
    getConsoleUI := fun _ _ => .error "no console",
    tektonCliFollowLogs := fun _ _ => none,
    postFinalStatus := fun _ name _ =>
      .ok { Name := name, Labels := [], Body := "spec", Status := "Succeeded",
            StartTime := some 10, CompletionTime := some 20 },
    getRepository := fun ns name =>
      .ok { Name := name, Namespace := ns, Spec := repoApp.Spec, Status := [] },
    updateRepository := fun _ repo => .ok repo }

/-- The sender is not allowed, and the provider refuses every status report. -/
def worldDenied : World :=
  { worldOk with
    aclCheck := fun _ => .ok false,
    createStatus := fun _ _ _ _ _ => some "provider down" }

/-- No registration matches the event. -/
def worldUnconfigured : World :=
  { worldOk with listRepositories := .ok [repoOther] }

/-- The first matching registration is placed in `ns1` and targets `ns2`. -/
def worldHijack : World :=
  { worldOk with listRepositories := .ok [repoOther, repoHijack, repoApp] }

/-- The default branch declares the namespace `ns1` in `.tekton/tekton.yaml`. -/
def worldOverride : World :=
  { worldOk with
    getFileFromDefaultBranch := fun _ _ => "namespace: ns1",
    processTektonYaml := fun _ _ => .ok { Namespace := "ns1", RemoteTasks := "" } }

/-- The default branch declares the namespace `ns9`, where no registration is placed. -/
def worldOverrideElsewhere : World :=
  { worldOk with
    getFileFromDefaultBranch := fun _ _ => "namespace: ns9",
    processTektonYaml := fun _ _ => .ok { Namespace := "ns9", RemoteTasks := "" } }

/-- The registry answers the re-fetch with a record whose `Namespace` is `nsX`. -/
def worldMovedRecord : World :=
  { worldOk with
    getRepository := fun _ name =>
      .ok { Name := name, Namespace := "nsX", Spec := repoApp.Spec, Status := [] } }

/-- The `.tekton` directory cannot be fetched. -/
def worldNoDir : World :=
  { worldOk with getTektonDir := fun _ _ => .error "404 Not Found" }

/-- The `.tekton` directory listing is empty, so nothing resolves. -/
def worldEmptyDir : World :=
  { worldOk with
    getTektonDir := fun _ _ => .ok [],
    concatAllYamlFiles := fun _ _ => .ok "",
    resolve := fun _ _ => .ok [],
    matchPipelinerunByAnnotation := fun _ _ =>
      .error "cannot match pipeline from webhook to pipelineruns" }

/-- A provider that refuses every in-progress status report. -/
def failInProgress : RunInfo → String → String → String → String → Option Err :=
  fun _ status _ _ _ => if status = "in_progress" then some "provider down" else none

/-- A provider that refuses the status report carrying the fallback console URL. -/
def failStarting : RunInfo → String → String → String → String → Option Err :=
  fun _ _ _ _ detailsURL =>
    if detailsURL = "https://giphy.com/explore/cat-exercise-wheel" then some "provider down"
    else none

/-- A provider that refuses every terminal (`completed`) status report. -/
def failCompleted : RunInfo → String → String → String → String → Option Err :=
  fun _ status _ _ _ => if status = "completed" then some "provider down" else none

/-! # Theorems -/

set_option maxRecDepth 8000

/-! ## History ledger -/

theorem appendRunStatus_eq_drop {α : Type} (old : List α) (r : α) :
    appendRunStatus old r =
      (old ++ [r]).drop ((old ++ [r]).length - min (old.length + 1) 5) := by
  unfold appendRunStatus goCopy maxPipelineRunStatusRun
  by_cases h : old.length ≥ 5
  · have h1 : min (old.length + 1) 5 = 5 := by omega
    have h2 : (List.drop (old.length - 5 + 1) old).length = 4 := by
      simp; omega
    have h3 : min old.length 4 = 4 := by omega
    simp only [h, if_true, h1, h2, h3, List.length_append, List.length_singleton]
    rw [List.take_append_of_le_length (by simp; omega)]
    rw [List.take_take]
    rw [List.take_of_length_le (by omega)]
    rw [List.drop_append_of_le_length (by omega)]
    congr 2
    omega
  · have h1 : min (old.length + 1) 5 = old.length + 1 := by omega
    simp [h, h1]

theorem appendRunStatus_full {α : Type} (old : List α) (r : α) (h : 5 ≤ old.length) :
    appendRunStatus old r = old.drop (old.length - 4) ++ [r] := by
  rw [appendRunStatus_eq_drop]
  have h1 : min (old.length + 1) 5 = 5 := by omega
  have h2 : old.length + 1 - 5 = old.length - 4 := by omega
  rw [h1, List.length_append, List.length_singleton, h2,
    List.drop_append_of_le_length (by omega)]

/-- C1: the history update of `Run` yields the last `min (len old + 1) 5` elements of
`old ++ [r]`. A history shorter than 5 simply grows by `r`; a history of length 5 or
more gives exactly 5 records, `r` last, preceded by the four most recent records of
`old` in their order; `[a,b,c,d,e]` with `f` gives `[b,c,d,e,f]`. -/
theorem appendRunStatus_spec {α : Type} (old : List α) (r : α) :
    appendRunStatus old r =
        (old ++ [r]).drop ((old ++ [r]).length - min (old.length + 1) 5) ∧
    (appendRunStatus old r).length = min (old.length + 1) 5 ∧
    (old.length < 5 →
      appendRunStatus old r = old ++ [r] ∧
      (appendRunStatus old r).length = old.length + 1) ∧
    (5 ≤ old.length →
      (appendRunStatus old r).length = 5 ∧
      (appendRunStatus old r).getLast? = some r ∧
      (appendRunStatus old r).take 4 = old.drop (old.length - 4) ∧
      appendRunStatus old r = old.drop (old.length - 4) ++ [r]) ∧
    (∀ a b c d e f : α, appendRunStatus [a, b, c, d, e] f = [b, c, d, e, f]) := by
  refine ⟨appendRunStatus_eq_drop old r, ?_, ?_, ?_, ?_⟩
  · rw [appendRunStatus_eq_drop]
    simp only [List.length_drop, List.length_append, List.length_singleton]
    omega
  · intro h
    have h1 : min (old.length + 1) 5 = old.length + 1 := by omega
    have h2 : appendRunStatus old r = old ++ [r] := by
      rw [appendRunStatus_eq_drop, h1]
      simp
    exact ⟨h2, by rw [h2]; simp⟩
  · intro h
    have h2 := appendRunStatus_full old r h
    have h3 : (old.drop (old.length - 4)).length = 4 := by
      rw [List.length_drop]; omega
    refine ⟨?_, ?_, ?_, h2⟩
    · rw [h2, List.length_append, h3]; rfl
    · rw [h2]; simp
    · rw [h2, List.take_append_of_le_length (by omega), List.take_of_length_le (by omega)]
  · intro a b c d e f
    rfl

/-- C1 at concrete histories: six records keep the last four and the new one; two
records simply grow. -/
theorem appendRunStatus_spec_witness :
    ((appendRunStatus [1, 2] 3 = [1, 2] ++ [3] ∧
      (appendRunStatus [1, 2] 3).length = [1, 2].length + 1)) ∧
    ((appendRunStatus [1, 2, 3, 4, 5, 6] 7).length = 5 ∧
      (appendRunStatus [1, 2, 3, 4, 5, 6] 7).getLast? = some 7 ∧
      (appendRunStatus [1, 2, 3, 4, 5, 6] 7).take 4 =
        [1, 2, 3, 4, 5, 6].drop ([1, 2, 3, 4, 5, 6].length - 4) ∧
      appendRunStatus [1, 2, 3, 4, 5, 6] 7 =
        [1, 2, 3, 4, 5, 6].drop ([1, 2, 3, 4, 5, 6].length - 4) ++ [7]) :=
  ⟨(appendRunStatus_spec [1, 2] 3).2.2.1 (by decide),
   (appendRunStatus_spec [1, 2, 3, 4, 5, 6] 7).2.2.2.1 (by decide)⟩

/-! ## Repository registration matcher -/

/-- The scan returns what validation of the first matching registration gives, and
the zero value with no error when nothing matches. -/
theorem getRepoByCRItems_find (items : List Repository) (url branch forceNamespace : String) :
    getRepoByCRItems items url branch forceNamespace =
      match items.find? (matchesEvent url branch) with
      | none => (Repository.zero, none)
      | some value =>
        if forceNamespace ≠ "" ∧ value.Namespace ≠ forceNamespace then
          (Repository.zero, some (policyViolation forceNamespace))
        else if value.Namespace ≠ value.Spec.Namespace then
          (Repository.zero, some (securityViolation value))
        else (value, none) := by
  induction items with
  | nil => rfl
  | cons value rest ih =>
    unfold getRepoByCRItems
    by_cases h : value.Spec.URL = url ∧ value.Spec.Branch = branch
    · have hm : matchesEvent url branch value = true := by simp [matchesEvent, h]
      rw [if_pos h, List.find?_cons_of_pos _ hm]
    · have hm : ¬ matchesEvent url branch value = true := by simp [matchesEvent, h]
      rw [if_neg h, List.find?_cons_of_neg _ hm, ih]

/-- A registration returned without error and with a target namespace is the first
match of the scan and passed both validations. -/
theorem getRepoByCRItems_ok (items : List Repository) (url branch forceNamespace : String)
    (repo : Repository)
    (h : getRepoByCRItems items url branch forceNamespace = (repo, none))
    (hns : repo.Spec.Namespace ≠ "") :
    items.find? (matchesEvent url branch) = some repo ∧
    repo.Namespace = repo.Spec.Namespace ∧
    (forceNamespace ≠ "" → repo.Namespace = forceNamespace) := by
  rw [getRepoByCRItems_find] at h
  cases hf : items.find? (matchesEvent url branch) with
  | none =>
    rw [hf] at h
    simp only [Prod.mk.injEq] at h
    exact absurd (by rw [← h.1]; rfl) hns
  | some value =>
    rw [hf] at h
    simp only at h
    split at h
    · simp at h
    · split at h
      · simp at h
      · next h1 h2 =>
        simp only [Prod.mk.injEq, and_true] at h
        subst h
        refine ⟨rfl, by simpa using h2, ?_⟩
        intro hf'
        by_contra hne
        exact h1 ⟨hf', hne⟩

/-- C2: `getRepoByCR` is decided by the first registration in list order matching
`(url, branch)`: a policy-violation error when `forceNamespace` is non-empty and differs
from its `Namespace`; otherwise a security-violation error when its `Namespace` differs
from its `Spec.Namespace`; otherwise that registration with a nil error. Registrations
after the first match do not matter. Every registration returned with a nil error and
a non-empty `Spec.Namespace` is in the list, matches, has `Namespace = Spec.Namespace`,
and has `Namespace = forceNamespace` when that is non-empty. -/
theorem getRepoByCR_first_match (items : List Repository)
    (url branch forceNamespace : String) :
    (∀ value, items.find? (matchesEvent url branch) = some value →
      getRepoByCR (.ok items) url branch forceNamespace =
        if forceNamespace ≠ "" ∧ value.Namespace ≠ forceNamespace then
          (Repository.zero, some (policyViolation forceNamespace))
        else if value.Namespace ≠ value.Spec.Namespace then
          (Repository.zero, some (securityViolation value))
        else (value, none)) ∧
    (∀ before value later later2,
      items = before ++ value :: later →
      (∀ x ∈ before, ¬ (x.Spec.URL = url ∧ x.Spec.Branch = branch)) →
      value.Spec.URL = url ∧ value.Spec.Branch = branch →
      getRepoByCR (.ok (before ++ value :: later2)) url branch forceNamespace =
        getRepoByCR (.ok items) url branch forceNamespace) ∧
    (∀ repo, getRepoByCR (.ok items) url branch forceNamespace = (repo, none) →
      repo.Spec.Namespace ≠ "" →
      repo ∈ items ∧ repo.Spec.URL = url ∧ repo.Spec.Branch = branch ∧
      repo.Namespace = repo.Spec.Namespace ∧
      (forceNamespace ≠ "" → repo.Namespace = forceNamespace)) := by
  refine ⟨?_, ?_, ?_⟩
  · intro value hf
    simp only [getRepoByCR]
    rw [getRepoByCRItems_find, hf]
  · intro before value later later2 hitems hbefore hvalue
    have hfind : ∀ l, (before ++ value :: l).find? (matchesEvent url branch) = some value := by
      intro l
      rw [List.find?_append]
      have h1 : before.find? (matchesEvent url branch) = none := by
        rw [List.find?_eq_none]
        intro x hx
        simpa [matchesEvent] using hbefore x hx
      have hm : matchesEvent url branch value = true := by simp [matchesEvent, hvalue]
      rw [h1, List.find?_cons_of_pos _ hm]
      rfl
    simp only [getRepoByCR]
    rw [getRepoByCRItems_find, getRepoByCRItems_find, hitems, hfind, hfind]
  · intro repo h hns
    simp only [getRepoByCR] at h
    obtain ⟨hf, h1, h2⟩ := getRepoByCRItems_ok items url branch forceNamespace repo h hns
    have hm := List.find?_some hf
    simp only [matchesEvent, decide_eq_true_eq] at hm
    exact ⟨List.mem_of_find?_eq_some hf, hm.1, hm.2, h1, h2⟩

/-- C2 on the list `[repoOther, repoApp, repoHijack]` with the forced namespace `ns1`:
the first match `repoApp` is returned, whatever follows it. -/
theorem getRepoByCR_first_match_witness :
    [repoOther, repoApp, repoHijack].find?
        (matchesEvent "https://git.example/org/app" "main") = some repoApp ∧
    getRepoByCR (.ok [repoOther, repoApp, repoHijack])
        "https://git.example/org/app" "main" "ns1" = (repoApp, none) ∧
    getRepoByCR (.ok ([repoOther] ++ repoApp :: []))
        "https://git.example/org/app" "main" "ns1" = (repoApp, none) ∧
    (repoApp ∈ [repoOther, repoApp, repoHijack] ∧
      repoApp.Spec.URL = "https://git.example/org/app" ∧ repoApp.Spec.Branch = "main" ∧
      repoApp.Namespace = repoApp.Spec.Namespace ∧
      (("ns1" : String) ≠ "" → repoApp.Namespace = "ns1")) :=
  have hfind : [repoOther, repoApp, repoHijack].find?
      (matchesEvent "https://git.example/org/app" "main") = some repoApp := by decide
  have hrun : getRepoByCR (.ok [repoOther, repoApp, repoHijack])
      "https://git.example/org/app" "main" "ns1" = (repoApp, none) :=
    ((getRepoByCR_first_match [repoOther, repoApp, repoHijack]
      "https://git.example/org/app" "main" "ns1").1 repoApp hfind).trans (by decide)
  ⟨hfind, hrun,
   ((getRepoByCR_first_match [repoOther, repoApp, repoHijack]
      "https://git.example/org/app" "main" "ns1").2.1 [repoOther] repoApp [repoHijack] []
      rfl (by decide) (by decide)).trans hrun,
   (getRepoByCR_first_match [repoOther, repoApp, repoHijack]
      "https://git.example/org/app" "main" "ns1").2.2 repoApp hrun (by decide)⟩

/-- C3 as stated fails: a registration with mismatched namespaces that does not match
the event URL is skipped by the scan, and `getRepoByCR` returns a nil error; one that
matches but comes after another match is never reached, and the earlier match is
returned with a nil error. -/
theorem getRepoByCR_mismatch_unmatched :
    repoHijack.Namespace ≠ repoHijack.Spec.Namespace ∧
    repoHijack ∈ [repoHijack] ∧
    getRepoByCR (.ok [repoHijack]) "https://git.example/org/other" "main" "" =
      (Repository.zero, none) ∧
    repoHijack ∈ [repoApp, repoHijack] ∧
    getRepoByCR (.ok [repoApp, repoHijack]) "https://git.example/org/app" "main" "" =
      (repoApp, none) := by
  decide

/-- C3, amended: when the first registration in list order matching `(url, branch)` has
`Namespace` different from `Spec.Namespace`, `getRepoByCR` returns a non-nil error and
the zero-valued registration, for every `forceNamespace`: the security violation
when `forceNamespace` is empty or equal to its `Namespace`, the policy violation
otherwise. -/
theorem getRepoByCR_mismatch_fails (items : List Repository)
    (url branch forceNamespace : String) (value : Repository)
    (hfirst : items.find? (matchesEvent url branch) = some value)
    (hmismatch : value.Namespace ≠ value.Spec.Namespace) :
    (getRepoByCR (.ok items) url branch forceNamespace).2 ≠ none ∧
    (getRepoByCR (.ok items) url branch forceNamespace).1 = Repository.zero ∧
    ((forceNamespace = "" ∨ value.Namespace = forceNamespace) →
      (getRepoByCR (.ok items) url branch forceNamespace).2 = some (securityViolation value)) ∧
    ((forceNamespace ≠ "" ∧ value.Namespace ≠ forceNamespace) →
      (getRepoByCR (.ok items) url branch forceNamespace).2 =
        some (policyViolation forceNamespace)) := by
  simp only [getRepoByCR]
  rw [getRepoByCRItems_find, hfirst]
  dsimp only
  by_cases hforce : forceNamespace ≠ "" ∧ value.Namespace ≠ forceNamespace
  · rw [if_pos hforce]
    refine ⟨by simp, rfl, ?_, fun _ => rfl⟩
    rintro (h | h)
    · exact absurd h hforce.1
    · exact absurd h hforce.2
  · rw [if_neg hforce, if_pos hmismatch]
    exact ⟨by simp, rfl, fun _ => rfl, fun h => absurd h hforce⟩

/-- C3, amended, on `[repoOther, repoHijack]`: the matching registration placed in `ns1`
and targeting `ns2` is refused with the security violation. -/
theorem getRepoByCR_mismatch_fails_witness :
    [repoOther, repoHijack].find? (matchesEvent "https://git.example/org/app" "main") =
        some repoHijack ∧
    repoHijack.Namespace ≠ repoHijack.Spec.Namespace ∧
    (getRepoByCR (.ok [repoOther, repoHijack])
        "https://git.example/org/app" "main" "").2 ≠ none ∧
    (getRepoByCR (.ok [repoOther, repoHijack])
        "https://git.example/org/app" "main" "").2 = some (securityViolation repoHijack) :=
  have h := getRepoByCR_mismatch_fails [repoOther, repoHijack]
    "https://git.example/org/app" "main" "" repoHijack (by decide) (by decide)
  ⟨by decide, by decide, h.1, h.2.2.1 (Or.inl rfl)⟩

/-- C4: when the registry lists the registrations and none has both `Spec.URL = url`
and `Spec.Branch = branch`, `getRepoByCR` returns a nil error and the zero-valued
registration, whose `Spec.Namespace` is empty, for every `forceNamespace`. -/
theorem getRepoByCR_no_match (items : List Repository) (url branch forceNamespace : String)
    (hnone : ∀ value ∈ items, ¬ (value.Spec.URL = url ∧ value.Spec.Branch = branch)) :
    getRepoByCR (.ok items) url branch forceNamespace = (Repository.zero, none) ∧
    (getRepoByCR (.ok items) url branch forceNamespace).2 = none ∧
    (getRepoByCR (.ok items) url branch forceNamespace).1.Spec.Namespace = "" := by
  have hfind : items.find? (matchesEvent url branch) = none := by
    rw [List.find?_eq_none]
    intro x hx
    simpa [matchesEvent] using hnone x hx
  have h : getRepoByCR (.ok items) url branch forceNamespace = (Repository.zero, none) := by
    simp only [getRepoByCR]
    rw [getRepoByCRItems_find, hfind]
  rw [h]
  exact ⟨rfl, rfl, rfl⟩

/-- C4 on `[repoOther, repoHijack]` and an event for a third repository. -/
theorem getRepoByCR_no_match_witness :
    (∀ value ∈ [repoOther, repoHijack],
      ¬ (value.Spec.URL = "https://git.example/org/none" ∧ value.Spec.Branch = "main")) ∧
    getRepoByCR (.ok [repoOther, repoHijack]) "https://git.example/org/none" "main" "ns9" =
      (Repository.zero, none) :=
  ⟨by decide,
   (getRepoByCR_no_match [repoOther, repoHijack] "https://git.example/org/none" "main" "ns9"
      (by decide)).1⟩

/-! ## The top-level handler -/

theorem flatten_map_of_singleton (f : Char → List Char) (l : List Char)
    (h : ∀ c ∈ l, f c = [c]) : (l.map f).flatten = l := by
  induction l with
  | nil => rfl
  | cons c rest ih =>
    have hc : f c = [c] := h c (List.mem_cons_self c rest)
    have hrest : ∀ x ∈ rest, f x = [x] := fun x hx => h x (List.mem_cons_of_mem c hx)
    simp [hc, ih hrest]

/-- Quoting a text whose characters need no escape only wraps it in double quotes. -/
theorem strconvQuote_plain (unicodePrint : Char → Bool) (s : String)
    (h : ∀ c ∈ s.toList, appendEscapedRune unicodePrint c = [c]) :
    (strconvQuote unicodePrint s).toList = dquote :: s.toList ++ [dquote] := by
  unfold strconvQuote
  rw [flatten_map_of_singleton _ _ h]
  rfl

/-- C5, amended: when `runWrap` reaches `pipelineascode.Run`, it returns exactly what
`Run` returned. If `Run` returned an error, `runWrap` issues exactly one `CreateStatus`
call, with status `completed`, conclusion `failure`, the console URL, and the text
`There was an issue validating the commit: ` followed by the error text as quoted by
`%q`; that text contains the error text verbatim when none of its characters is
escaped by the quoting. If `Run` returned nil, `runWrap` issues no status. The outcome
of the `CreateStatus` call changes nothing. -/
theorem runWrap_reports_failure (w : WrapWorld) (event : Event)
    (hreach : reachesRun w event) :
    (runWrap w).err = w.run event ∧
    (∀ err, w.run event = some err →
      (runWrap w).statuses =
        [{ Status := "completed", Conclusion := "failure",
           Text := "There was an issue validating the commit: " ++
             strconvQuote w.unicodePrint err,
           DetailsURL := w.consoleURL }] ∧
      ((∀ c ∈ err.toList, appendEscapedRune w.unicodePrint c = [c]) →
        ∀ opts ∈ (runWrap w).statuses, containsText opts.Text err)) ∧
    (w.run event = none → (runWrap w).statuses = []) ∧
    (∀ createStatus', runWrap { w with createStatus := createStatus' } = runWrap w) := by
  obtain ⟨htoken, payload, hpayload, hparse⟩ := hreach
  have hclient : (if w.ProviderToken ≠ "" then w.setClient else none) = none := by
    rcases htoken with h | h
    · simp [h]
    · simp [h]
  have hrun : runWrap w =
      match w.run event with
      | some err => { err := some err, statuses := [failureStatus w err] }
      | none => { err := none, statuses := [] } := by
    unfold runWrap
    simp only [hclient, hpayload, hparse]
    cases w.run event with
    | none => rfl
    | some err =>
      dsimp only
      split <;> rfl
  refine ⟨?_, ?_, ?_, ?_⟩
  · rw [hrun]
    cases w.run event <;> rfl
  · intro err herr
    rw [hrun, herr]
    refine ⟨rfl, ?_⟩
    intro hplain opts hopts
    simp only [List.mem_singleton] at hopts
    subst hopts
    refine ⟨"There was an issue validating the commit: ".toList ++ [dquote], [dquote], ?_⟩
    simp only [failureStatus, String.toList, String.data_append]
    have hq := strconvQuote_plain w.unicodePrint err hplain
    simp only [String.toList] at hq
    rw [hq]
    simp
  · intro hnone
    rw [hrun, hnone]
  · intro createStatus'
    unfold runWrap
    simp only [getPayloadFromFile, failureStatus]
    split <;> try rfl
    split <;> try rfl
    split <;> try rfl
    split <;> try rfl
    split <;> split <;> rfl

/-- C5, amended, in `wrapWorldBoom`: the pass fails with `boom`, the status report
fails too; `runWrap` returns `boom` and has issued the one failure status, whose
text contains `boom`. -/
theorem runWrap_reports_failure_witness :
    reachesRun wrapWorldBoom { EventType := "pull_request", TriggerTarget := "pull_request" } ∧
    (runWrap wrapWorldBoom).err = some "boom" ∧
    (runWrap wrapWorldBoom).statuses =
      [{ Status := "completed", Conclusion := "failure",
         Text := "There was an issue validating the commit: " ++
           strconvQuote wrapWorldBoom.unicodePrint "boom",
         DetailsURL := "https://console.example" }] ∧
    (∀ opts ∈ (runWrap wrapWorldBoom).statuses, containsText opts.Text "boom") :=
  have hreach : reachesRun wrapWorldBoom
      { EventType := "pull_request", TriggerTarget := "pull_request" } :=
    ⟨Or.inl rfl, "payload", rfl, rfl⟩
  have h := runWrap_reports_failure wrapWorldBoom _ hreach
  ⟨hreach, h.1, (h.2.1 "boom" rfl).1, (h.2.1 "boom" rfl).2 (by decide)⟩

/-- C5 as stated fails: when the pass fails with the Kubernetes not-found message, in
which the namespace name stands in double quotes, the one failure status `runWrap`
issues has a text in which `%q` has put a backslash before each of these double
quotes, so the error text does not occur in it. -/
theorem runWrap_quotes_error_text :
    wrapWorldNotFound.run { EventType := "pull_request", TriggerTarget := "pull_request" } =
      some namespaceNotFound ∧
    (runWrap wrapWorldNotFound).err = some namespaceNotFound ∧
    (runWrap wrapWorldNotFound).statuses.length = 1 ∧
    (∀ opts ∈ (runWrap wrapWorldNotFound).statuses,
      opts.Status = "completed" ∧ opts.Conclusion = "failure" ∧
      opts.Text.toList =
        "There was an issue validating the commit: ".toList ++
          [dquote] ++ "namespaces ".toList ++ [backslash, dquote] ++ "ns1".toList ++
          [backslash, dquote] ++ " not found".toList ++ [dquote] ∧
      ¬ containsText opts.Text namespaceNotFound) := by
  decide

/-! ## The orchestration pass -/

theorem eventTektonYaml_calls (w : World) (ri : RunInfo) (objects : List TreeEntry) :
    ∀ c ∈ (eventTektonYaml w ri objects).1, ∃ sha, c = Call.getObject sha := by
  induction objects with
  | nil => simp [eventTektonYaml]
  | cons file rest ih =>
    unfold eventTektonYaml
    split
    · split <;> simp
    · exact ih

theorem createPipelineRun_not_mem_eventTektonYaml (w : World) (ri : RunInfo)
    (objects : List TreeEntry) (ns : String) (pr : PipelineRun) :
    (Call.createPipelineRun ns pr ∈ (eventTektonYaml w ri objects).1) = False := by
  refine eq_false (fun h => ?_)
  obtain ⟨sha, hsha⟩ := eventTektonYaml_calls w ri objects _ h
  cases hsha

theorem createStatus_not_mem_eventTektonYaml (w : World) (ri : RunInfo)
    (objects : List TreeEntry) (a b c d : String) :
    (Call.createStatus a b c d ∈ (eventTektonYaml w ri objects).1) = False := by
  refine eq_false (fun h => ?_)
  obtain ⟨sha, hsha⟩ := eventTektonYaml_calls w ri objects _ h
  cases hsha

theorem getNamespace_not_mem_eventTektonYaml (w : World) (ri : RunInfo)
    (objects : List TreeEntry) (ns : String) :
    (Call.getNamespace ns ∈ (eventTektonYaml w ri objects).1) = False := by
  refine eq_false (fun h => ?_)
  obtain ⟨sha, hsha⟩ := eventTektonYaml_calls w ri objects _ h
  cases hsha

theorem getRepository_not_mem_eventTektonYaml (w : World) (ri : RunInfo)
    (objects : List TreeEntry) (ns name : String) :
    (Call.getRepository ns name ∈ (eventTektonYaml w ri objects).1) = False := by
  refine eq_false (fun h => ?_)
  obtain ⟨sha, hsha⟩ := eventTektonYaml_calls w ri objects _ h
  cases hsha

theorem updateRepository_not_mem_eventTektonYaml (w : World) (ri : RunInfo)
    (objects : List TreeEntry) (ns : String) (repo : Repository) :
    (Call.updateRepository ns repo ∈ (eventTektonYaml w ri objects).1) = False := by
  refine eq_false (fun h => ?_)
  obtain ⟨sha, hsha⟩ := eventTektonYaml_calls w ri objects _ h
  cases hsha

/-- C9: the pipeline run that `Run` passes to `Create` carries exactly the five labels
`tekton.dev/pipeline-ascode-owner`, `-repository`, `-sha`, `-sender` and `-branch`,
mapped to the event's `Owner`, `Repository`, `SHA`, `Sender` and `BaseBranch`; no other
key is present, whatever labels the candidate declared. -/
theorem Run_submitted_labels (w : World) (ri : RunInfo) (ns : String) (pr : PipelineRun)
    (hsubmit : Call.createPipelineRun ns pr ∈ (Run w ri).trace) :
    pr.Labels =
      [ ("tekton.dev/pipeline-ascode-owner", ri.Owner),
        ("tekton.dev/pipeline-ascode-repository", ri.Repository),
        ("tekton.dev/pipeline-ascode-sha", ri.SHA),
        ("tekton.dev/pipeline-ascode-sender", ri.Sender),
        ("tekton.dev/pipeline-ascode-branch", ri.BaseBranch) ] ∧
    pr.Labels.lookup "tekton.dev/pipeline-ascode-owner" = some ri.Owner ∧
    pr.Labels.lookup "tekton.dev/pipeline-ascode-repository" = some ri.Repository ∧
    pr.Labels.lookup "tekton.dev/pipeline-ascode-sha" = some ri.SHA ∧
    pr.Labels.lookup "tekton.dev/pipeline-ascode-sender" = some ri.Sender ∧
    pr.Labels.lookup "tekton.dev/pipeline-ascode-branch" = some ri.BaseBranch ∧
    (∀ key, key ∉ [ "tekton.dev/pipeline-ascode-owner",
                    "tekton.dev/pipeline-ascode-repository",
                    "tekton.dev/pipeline-ascode-sha",
                    "tekton.dev/pipeline-ascode-sender",
                    "tekton.dev/pipeline-ascode-branch" ] →
      pr.Labels.lookup key = none) := by
  have hlabels : pr.Labels = runLabels ri := by
    unfold Run at hsubmit
    simp only [Outcome.after, Outcome.afterAll, Outcome.ret] at hsubmit
    repeat' split at hsubmit
    all_goals
      simp [createPipelineRun_not_mem_eventTektonYaml] at hsubmit
    all_goals
      rw [hsubmit.2]
      rfl
  rw [hlabels]
  refine ⟨rfl, ?_, ?_, ?_, ?_, ?_, ?_⟩
  · simp [runLabels, List.lookup]
  · simp [runLabels, List.lookup]
  · simp [runLabels, List.lookup]
  · simp [runLabels, List.lookup]
  · simp [runLabels, List.lookup]
  · intro key hkey
    simp only [List.mem_cons, List.mem_singleton, List.not_mem_nil, or_false, not_or] at hkey
    obtain ⟨h1, h2, h3, h4, h5⟩ := hkey
    have e1 : (key == "tekton.dev/pipeline-ascode-owner") = false := by simpa using h1
    have e2 : (key == "tekton.dev/pipeline-ascode-repository") = false := by simpa using h2
    have e3 : (key == "tekton.dev/pipeline-ascode-sha") = false := by simpa using h3
    have e4 : (key == "tekton.dev/pipeline-ascode-sender") = false := by simpa using h4
    have e5 : (key == "tekton.dev/pipeline-ascode-branch") = false := by simpa using h5
    simp only [runLabels, List.lookup, e1, e2, e3, e4, e5]

/-- C9 in `worldOk`: the candidate declared the label `app`; the run submitted in `ns1`
carries the five event labels only. -/
theorem Run_submitted_labels_witness :
    Call.createPipelineRun "ns1" { candidate with Labels := runLabels runinfoPR } ∈
        (Run worldOk runinfoPR).trace ∧
    ({ candidate with Labels := runLabels runinfoPR } : PipelineRun).Labels =
      [ ("tekton.dev/pipeline-ascode-owner", "org"),
        ("tekton.dev/pipeline-ascode-repository", "app"),
        ("tekton.dev/pipeline-ascode-sha", "abc123"),
        ("tekton.dev/pipeline-ascode-sender", "alice"),
        ("tekton.dev/pipeline-ascode-branch", "main") ] :=
  ⟨by decide,
   (Run_submitted_labels worldOk runinfoPR "ns1"
      { candidate with Labels := runLabels runinfoPR } (by decide)).1⟩

/-- A registration returned by `getRepoByCR` without error and with a target namespace
comes from a successful listing, where it is the first match and is consistent. -/
theorem getRepoByCR_ok (repositories : Except Err (List Repository))
    (url branch forceNamespace : String) (repo : Repository)
    (h : getRepoByCR repositories url branch forceNamespace = (repo, none))
    (hns : repo.Spec.Namespace ≠ "") :
    ∃ items, repositories = .ok items ∧
      items.find? (matchesEvent url branch) = some repo ∧ repo ∈ items ∧
      repo.Spec.URL = url ∧ repo.Spec.Branch = branch ∧
      repo.Namespace = repo.Spec.Namespace ∧
      (forceNamespace ≠ "" → repo.Namespace = forceNamespace) := by
  cases repositories with
  | error err => simp [getRepoByCR] at h
  | ok items =>
    simp only [getRepoByCR] at h
    obtain ⟨hf, h1, h2⟩ := getRepoByCRItems_ok items url branch forceNamespace repo h hns
    have hm := List.find?_some hf
    simp only [matchesEvent, decide_eq_true_eq] at hm
    exact ⟨items, rfl, hf, List.mem_of_find?_eq_some hf, hm.1, hm.2, h1, h2⟩

/-- C10 as stated fails: in `worldMovedRecord` the run is submitted in `ns1` and the
history is fetched again in `ns1`, but the registry answers with a record whose
`Namespace` is `nsX`, and the history update is made in `nsX`. -/
theorem Run_update_in_refetched_namespace :
    (Run worldMovedRecord runinfoPR).err = none ∧
    Call.createPipelineRun "ns1" { candidate with Labels := runLabels runinfoPR } ∈
        (Run worldMovedRecord runinfoPR).trace ∧
    Call.getNamespace "ns1" ∈ (Run worldMovedRecord runinfoPR).trace ∧
    Call.getRepository "ns1" "app" ∈ (Run worldMovedRecord runinfoPR).trace ∧
    Call.updateRepository "nsX"
        { Name := "app", Namespace := "nsX", Spec := repoApp.Spec,
          Status := [{ Status := "Succeeded", PipelineRunName := "app-run-1",
                       StartTime := some 10, CompletionTime := some 20 }] } ∈
        (Run worldMovedRecord runinfoPR).trace ∧
    ("nsX" : String) ≠ "ns1" := by
  decide

/-- C10, amended: whenever `Run` submits a pipeline run in namespace `ns`, `ns` is
non-empty and a listed registration `R` (the first match of the scan) has `Spec.URL` the
event URL, `Spec.Branch` the event base branch and `Namespace = Spec.Namespace = ns`,
with `Namespace` equal to the namespace that the default-branch `.tekton/tekton.yaml`
declares when that file is non-empty and the declared namespace is non-empty; the
namespace presence check targets `ns`, the history re-fetch targets `ns` and the name
of `R`, and the history update targets the namespace recorded in the registration that
this re-fetch returned. No run is submitted when the first matching registration has
`Namespace` different from `Spec.Namespace`, nor when it has `Namespace` different from
a non-empty namespace declared on the default branch. -/
theorem Run_tenant_isolation (w : World) (ri : RunInfo) :
    (∀ ns pr, Call.createPipelineRun ns pr ∈ (Run w ri).trace →
      ns ≠ "" ∧
      (∃ items R, w.listRepositories = .ok items ∧ R ∈ items ∧
        items.find? (matchesEvent ri.URL ri.BaseBranch) = some R ∧
        R.Spec.URL = ri.URL ∧ R.Spec.Branch = ri.BaseBranch ∧
        R.Namespace = ns ∧ R.Spec.Namespace = ns ∧
        (∀ checkRunID maintekton,
          w.createCheckRun "in_progress" ri = .ok checkRunID →
          w.getFileFromDefaultBranch ".tekton/tekton.yaml"
            { ri with CheckRunID := checkRunID } ≠ "" →
          w.processTektonYaml { ri with CheckRunID := checkRunID }
            (w.getFileFromDefaultBranch ".tekton/tekton.yaml"
              { ri with CheckRunID := checkRunID }) = .ok maintekton →
          maintekton.Namespace ≠ "" → R.Namespace = maintekton.Namespace) ∧
        (∀ ns' name, Call.getRepository ns' name ∈ (Run w ri).trace →
          ns' = ns ∧ name = R.Name) ∧
        (∀ ns' repo, Call.updateRepository ns' repo ∈ (Run w ri).trace →
          ∃ lastrepo, w.getRepository ns R.Name = .ok lastrepo ∧
            Call.getRepository ns R.Name ∈ (Run w ri).trace ∧
            ns' = lastrepo.Namespace ∧ repo.Namespace = lastrepo.Namespace)) ∧
      Call.getNamespace ns ∈ (Run w ri).trace ∧
      (∀ ns', Call.getNamespace ns' ∈ (Run w ri).trace → ns' = ns)) ∧
    (∀ items R, w.listRepositories = .ok items →
      items.find? (matchesEvent ri.URL ri.BaseBranch) = some R →
      R.Namespace ≠ R.Spec.Namespace →
      ∀ ns pr, Call.createPipelineRun ns pr ∉ (Run w ri).trace) ∧
    (∀ items R checkRunID maintekton, w.listRepositories = .ok items →
      items.find? (matchesEvent ri.URL ri.BaseBranch) = some R →
      w.createCheckRun "in_progress" ri = .ok checkRunID →
      w.getFileFromDefaultBranch ".tekton/tekton.yaml"
        { ri with CheckRunID := checkRunID } ≠ "" →
      w.processTektonYaml { ri with CheckRunID := checkRunID }
        (w.getFileFromDefaultBranch ".tekton/tekton.yaml"
          { ri with CheckRunID := checkRunID }) = .ok maintekton →
      maintekton.Namespace ≠ "" → R.Namespace ≠ maintekton.Namespace →
      ∀ ns pr, Call.createPipelineRun ns pr ∉ (Run w ri).trace) := by
  have key : ∀ ns pr, Call.createPipelineRun ns pr ∈ (Run w ri).trace →
      ns ≠ "" ∧
      (∃ items R, w.listRepositories = .ok items ∧ R ∈ items ∧
        items.find? (matchesEvent ri.URL ri.BaseBranch) = some R ∧
        R.Spec.URL = ri.URL ∧ R.Spec.Branch = ri.BaseBranch ∧
        R.Namespace = ns ∧ R.Spec.Namespace = ns ∧
        (∀ checkRunID maintekton,
          w.createCheckRun "in_progress" ri = .ok checkRunID →
          w.getFileFromDefaultBranch ".tekton/tekton.yaml"
            { ri with CheckRunID := checkRunID } ≠ "" →
          w.processTektonYaml { ri with CheckRunID := checkRunID }
            (w.getFileFromDefaultBranch ".tekton/tekton.yaml"
              { ri with CheckRunID := checkRunID }) = .ok maintekton →
          maintekton.Namespace ≠ "" → R.Namespace = maintekton.Namespace) ∧
        (∀ ns' name, Call.getRepository ns' name ∈ (Run w ri).trace →
          ns' = ns ∧ name = R.Name) ∧
        (∀ ns' repo, Call.updateRepository ns' repo ∈ (Run w ri).trace →
          ∃ lastrepo, w.getRepository ns R.Name = .ok lastrepo ∧
            Call.getRepository ns R.Name ∈ (Run w ri).trace ∧
            ns' = lastrepo.Namespace ∧ repo.Namespace = lastrepo.Namespace)) ∧
      Call.getNamespace ns ∈ (Run w ri).trace ∧
      (∀ ns', Call.getNamespace ns' ∈ (Run w ri).trace → ns' = ns) := by
    intro ns pr hsubmit
    generalize hRun : Run w ri = o at hsubmit ⊢
    unfold Run at hRun
    simp only [Outcome.after, Outcome.afterAll, Outcome.ret] at hRun
    repeat' split at hRun
    all_goals subst hRun
    all_goals simp [createPipelineRun_not_mem_eventTektonYaml] at hsubmit
    all_goals
      obtain ⟨hns, -⟩ := hsubmit
      subst hns
      have hrepo := ‹getRepoByCR w.listRepositories ri.URL ri.BaseBranch _ = (_, none)›
      have hmarker := ‹w.createCheckRun "in_progress" ri = Except.ok _›
      have hmain := ‹defaultBranchConfig w _ = Except.ok _›
      obtain ⟨items, hitems, hfind, hmem, hurl, hbranch, hsame, hforce⟩ :=
        getRepoByCR_ok _ _ _ _ _ hrepo ‹_›
      refine ⟨‹_›, ⟨items, _, hitems, hmem, hfind, hurl, hbranch, hsame, rfl, ?_, ?_, ?_⟩,
        ?_, ?_⟩
      · intro checkRunID maintekton hcheck hcontent hproc hne
        rw [hmarker] at hcheck
        cases hcheck
        have hpath : tektonConfigurationPath = ".tekton/tekton.yaml" := by decide
        simp only [defaultBranchConfig, hpath] at hmain
        rw [if_pos hcontent, hproc] at hmain
        cases hmain
        exact hforce hne
      · simp [getRepository_not_mem_eventTektonYaml]
      · intro ns' repo' hupdate
        simp [updateRepository_not_mem_eventTektonYaml] at hupdate
        try
          refine ⟨_, ‹w.getRepository _ _ = Except.ok _›, ?_, hupdate.1, ?_⟩
          · simp [getRepository_not_mem_eventTektonYaml]
          · rw [hupdate.2]
      · simp
      · simp [getNamespace_not_mem_eventTektonYaml]
  refine ⟨key, ?_, ?_⟩
  · intro items R hitems hfind hmismatch ns pr hsubmit
    obtain ⟨-, ⟨items', R', hitems', -, hfind', -, -, h1, h2, -⟩, -⟩ := key ns pr hsubmit
    rw [hitems] at hitems'
    cases hitems'
    rw [hfind] at hfind'
    cases hfind'
    exact hmismatch (h1.trans h2.symm)
  · intro items R checkRunID maintekton hitems hfind hcheck hcontent hproc hne hdiff
      ns pr hsubmit
    obtain ⟨-, ⟨items', R', hitems', -, hfind', -, -, -, -, hover, -⟩, -⟩ :=
      key ns pr hsubmit
    rw [hitems] at hitems'
    cases hitems'
    rw [hfind] at hfind'
    cases hfind'
    exact hdiff (hover checkRunID maintekton hcheck hcontent hproc hne)

/-- C10, amended, at concrete passes. In `worldOverride` the default branch declares
`ns1`: the run is submitted in `ns1`, the registration behind it is placed in `ns1`,
the declared namespace, and the presence check and the history update go to `ns1`.
In `worldHijack` the first match is placed in `ns1` and targets `ns2`, in
`worldOverrideElsewhere` the default branch declares `ns9`: nothing is submitted. -/
theorem Run_tenant_isolation_witness :
    Call.createPipelineRun "ns1" { candidate with Labels := runLabels runinfoPR } ∈
        (Run worldOverride runinfoPR).trace ∧
    (∃ R, R ∈ [repoOther, repoApp] ∧ R.Spec.URL = "https://git.example/org/app" ∧
      R.Spec.Branch = "main" ∧ R.Namespace = "ns1" ∧ R.Spec.Namespace = "ns1" ∧
      R.Namespace = ({ Namespace := "ns1", RemoteTasks := "" } : TektonYamlConfig).Namespace) ∧
    Call.getNamespace "ns1" ∈ (Run worldOverride runinfoPR).trace ∧
    (∀ ns' repo, Call.updateRepository ns' repo ∈ (Run worldOverride runinfoPR).trace →
      ns' = "ns1") ∧
    [repoOther, repoHijack, repoApp].find?
        (matchesEvent runinfoPR.URL runinfoPR.BaseBranch) = some repoHijack ∧
    repoHijack.Namespace ≠ repoHijack.Spec.Namespace ∧
    (∀ ns pr, Call.createPipelineRun ns pr ∉ (Run worldHijack runinfoPR).trace) ∧
    repoApp.Namespace ≠ ({ Namespace := "ns9", RemoteTasks := "" } : TektonYamlConfig).Namespace ∧
    (∀ ns pr, Call.createPipelineRun ns pr ∉
      (Run worldOverrideElsewhere runinfoPR).trace) := by
  obtain ⟨-, ⟨items, R, hitems, hmem, -, hurl, hbranch, hns, hspec, hover, -, hupdate⟩,
      hpresence, -⟩ :=
    (Run_tenant_isolation worldOverride runinfoPR).1 "ns1"
      { candidate with Labels := runLabels runinfoPR } (by decide)
  cases hitems
  refine ⟨by decide,
    ⟨R, hmem, hurl, hbranch, hns, hspec,
      hover (some 1) { Namespace := "ns1", RemoteTasks := "" } rfl (by decide) rfl
        (by decide)⟩,
    hpresence, ?_, by decide, by decide,
    (Run_tenant_isolation worldHijack runinfoPR).2.1 [repoOther, repoHijack, repoApp]
      repoHijack rfl (by decide) (by decide),
    by decide,
    (Run_tenant_isolation worldOverrideElsewhere runinfoPR).2.2 [repoOther, repoApp] repoApp
      (some 1) { Namespace := "ns9", RemoteTasks := "" } rfl (by decide) rfl (by decide) rfl
      (by decide) (by decide)⟩
  intro ns' repo hmem'
  obtain ⟨lastrepo, hget, -, hns', -⟩ := hupdate ns' repo hmem'
  cases hget
  exact hns'

/-- C6: once the progress marker exists, if the access check denies the sender, or it
allows and `getRepoByCR` returns a registration with empty `Spec.Namespace` and a nil
error, `Run` posts exactly one status, with phase `completed` and conclusion `skipped`,
returns a nil error whatever the outcome of that post, and neither submits a pipeline
run nor updates a registration. -/
theorem Run_skip_denied_or_unconfigured (w : World) (ri : RunInfo)
    (checkRunID : Option Int)
    (hmarker : w.createCheckRun "in_progress" ri = .ok checkRunID)
    (hskip :
      w.aclCheck { ri with CheckRunID := checkRunID } = .ok false ∨
      (w.aclCheck { ri with CheckRunID := checkRunID } = .ok true ∧
        ∃ maintekton repo,
          defaultBranchConfig w { ri with CheckRunID := checkRunID } = .ok maintekton ∧
          getRepoByCR w.listRepositories ri.URL ri.BaseBranch maintekton.Namespace =
            (repo, none) ∧
          repo.Spec.Namespace = "")) :
    (Run w ri).err = none ∧
    (∃ text url, (Run w ri).trace.filter Call.isCreateStatus =
      [Call.createStatus "completed" "skipped" text url]) ∧
    (∀ ns pr, Call.createPipelineRun ns pr ∉ (Run w ri).trace) ∧
    (∀ ns repo, Call.updateRepository ns repo ∉ (Run w ri).trace) := by
  unfold Run
  rcases hskip with hdenied | ⟨hallowed, maintekton, repo, hmain, hrepo, hempty⟩
  · simp [hmarker, hdenied, Outcome.after, Outcome.ret, Call.isCreateStatus, List.filter]
  · simp [hmarker, hallowed, hmain, hrepo, hempty, Outcome.after, Outcome.ret,
      Call.isCreateStatus, List.filter]

/-- C6 in `worldDenied` (access denied, the status post fails) and in
`worldUnconfigured` (no registration matches): both passes return nil after one
`skipped` status. -/
theorem Run_skip_denied_or_unconfigured_witness :
    Run worldDenied runinfoPR =
      { err := none,
        trace := [Call.createCheckRun "in_progress",
          Call.createStatus "completed" "skipped"
            "User alice is not allowed to run CI on this repo."
            "https://tenor.com/search/police-cat-gifs"] } ∧
    (Run worldDenied runinfoPR).err = none ∧
    (Run worldUnconfigured runinfoPR).err = none ∧
    (∀ ns pr, Call.createPipelineRun ns pr ∉ (Run worldUnconfigured runinfoPR).trace) :=
  have h1 := Run_skip_denied_or_unconfigured worldDenied runinfoPR (some 1) rfl (Or.inl rfl)
  have h2 := Run_skip_denied_or_unconfigured worldUnconfigured runinfoPR (some 1) rfl
    (Or.inr ⟨rfl, TektonYamlConfig.zero, Repository.zero, rfl, by decide, rfl⟩)
  ⟨by decide, h1.1, h2.1, h2.2.2.1⟩

/-- C7 evaluated: when `GetTektonDir` fails (`worldNoDir`), `Run` posts the `skipped`
status and then returns the error of `GetTektonDir`, not nil; when the listing is
empty (`worldEmptyDir`), `Run` goes on, posts the in-progress status and no `skipped`
status, and returns the error of the later step that finds nothing to run. -/
theorem Run_tekton_dir_absent_or_empty :
    Run worldNoDir runinfoPR =
      { err := some "404 Not Found",
        trace := [Call.createCheckRun "in_progress",
          Call.getFileFromDefaultBranch ".tekton/tekton.yaml",
          Call.listRepositories,
          Call.getTektonDir ".tekton",
          Call.createStatus "completed" "skipped"
            "😿 Could not find a <b>.tekton/</b> directory for this repository"
            "https://tenor.com/search/sad-cat-gifs"] } ∧
    Run worldEmptyDir runinfoPR =
      { err := some "cannot match pipeline from webhook to pipelineruns",
        trace := [Call.createCheckRun "in_progress",
          Call.getFileFromDefaultBranch ".tekton/tekton.yaml",
          Call.listRepositories,
          Call.getTektonDir ".tekton",
          Call.getNamespace "ns1",
          Call.createStatus "in_progress" ""
            "Getting pipelinerun configuration in namespace <b>ns1</b>"
            "https://tenor.com/search/sad-cat-gifs",
          Call.concatAllYamlFiles []] } := by
  decide

theorem defaultBranchConfig_createStatus (w : World)
    (createStatus' : RunInfo → String → String → String → String → Option Err)
    (ri : RunInfo) :
    defaultBranchConfig { w with createStatus := createStatus' } ri =
      defaultBranchConfig w ri := rfl

theorem eventTektonYaml_createStatus (w : World)
    (createStatus' : RunInfo → String → String → String → String → Option Err)
    (ri : RunInfo) (objects : List TreeEntry) :
    eventTektonYaml { w with createStatus := createStatus' } ri objects =
      eventTektonYaml w ri objects := by
  induction objects with
  | nil => rfl
  | cons file rest ih =>
    unfold eventTektonYaml
    rw [ih]

/-- C8 as stated fails. In `worldOk` the pass submits the run, waits, updates the
history and returns nil. With the same world but a provider that refuses in-progress
reports, `Run` returns the provider error before submitting anything; with a provider
that refuses only the report sent after submission, `Run` returns nil without waiting
for the run and without updating the history. -/
theorem Run_in_progress_status_failure_alters :
    Run worldOk runinfoPR =
      { err := none,
        trace := [Call.createCheckRun "in_progress",
          Call.getFileFromDefaultBranch ".tekton/tekton.yaml",
          Call.listRepositories,
          Call.getTektonDir ".tekton",
          Call.getNamespace "ns1",
          Call.createStatus "in_progress" ""
            "Getting pipelinerun configuration in namespace <b>ns1</b>"
            "https://tenor.com/search/sad-cat-gifs",
          Call.concatAllYamlFiles [{ Name := "pipelinerun.yaml", SHA := "f00" }],
          Call.createPipelineRun "ns1" { candidate with Labels := runLabels runinfoPR },
          Call.getConsoleUI "ns1" "app-run-1",
          Call.createStatus "in_progress" "" (startingPipelinerunText "app-run-1" "ns1")
            "https://giphy.com/explore/cat-exercise-wheel",
          Call.tektonCliFollowLogs "ns1" "app-run-1",
          Call.postFinalStatus "app-run-1" "ns1",
          Call.getRepository "ns1" "app",
          Call.updateRepository "ns1"
            { Name := "app", Namespace := "ns1", Spec := repoApp.Spec,
              Status := [{ Status := "Succeeded", PipelineRunName := "app-run-1",
                           StartTime := some 10, CompletionTime := some 20 }] }] } ∧
    Run { worldOk with createStatus := failInProgress } runinfoPR =
      { err := some "provider down",
        trace := [Call.createCheckRun "in_progress",
          Call.getFileFromDefaultBranch ".tekton/tekton.yaml",
          Call.listRepositories,
          Call.getTektonDir ".tekton",
          Call.getNamespace "ns1",
          Call.createStatus "in_progress" ""
            "Getting pipelinerun configuration in namespace <b>ns1</b>"
            "https://tenor.com/search/sad-cat-gifs"] } ∧
    Run { worldOk with createStatus := failStarting } runinfoPR =
      { err := none,
        trace := [Call.createCheckRun "in_progress",
          Call.getFileFromDefaultBranch ".tekton/tekton.yaml",
          Call.listRepositories,
          Call.getTektonDir ".tekton",
          Call.getNamespace "ns1",
          Call.createStatus "in_progress" ""
            "Getting pipelinerun configuration in namespace <b>ns1</b>"
            "https://tenor.com/search/sad-cat-gifs",
          Call.concatAllYamlFiles [{ Name := "pipelinerun.yaml", SHA := "f00" }],
          Call.createPipelineRun "ns1" { candidate with Labels := runLabels runinfoPR },
          Call.getConsoleUI "ns1" "app-run-1",
          Call.createStatus "in_progress" "" (startingPipelinerunText "app-run-1" "ns1")
            "https://giphy.com/explore/cat-exercise-wheel"] } := by
  decide

/-- C8, amended: a failure of a terminal status report (a `CreateStatus` call with phase
`completed`) does not alter the pass. Two executions of `Run` that differ only in
whether such calls fail or succeed return the same error-or-nil and make the same
calls: the same run submission, completion wait and history update. -/
theorem Run_terminal_status_best_effort (w : World)
    (createStatus' : RunInfo → String → String → String → String → Option Err)
    (ri : RunInfo)
    (hagree : ∀ ri' status conclusion text url, status ≠ "completed" →
      createStatus' ri' status conclusion text url =
        w.createStatus ri' status conclusion text url) :
    Run { w with createStatus := createStatus' } ri = Run w ri := by
  have hin : ∀ ri' conclusion text url,
      createStatus' ri' "in_progress" conclusion text url =
        w.createStatus ri' "in_progress" conclusion text url :=
    fun ri' conclusion text url => hagree ri' "in_progress" conclusion text url (by decide)
  unfold Run
  simp only [defaultBranchConfig_createStatus, eventTektonYaml_createStatus]
  simp only [hin]

/-- C8, amended, in `worldDenied`-like worlds: the sender is denied, and the pass is
the same whether the provider accepts the `skipped` report or refuses it. -/
theorem Run_terminal_status_best_effort_witness :
    (∀ ri' status conclusion text url, status ≠ "completed" →
      failCompleted ri' status conclusion text url =
        ({ worldOk with aclCheck := fun _ => .ok false } : World).createStatus
          ri' status conclusion text url) ∧
    failCompleted runinfoPR "completed" "skipped" "" "" ≠
      ({ worldOk with aclCheck := fun _ => .ok false } : World).createStatus
        runinfoPR "completed" "skipped" "" "" ∧
    Run { ({ worldOk with aclCheck := fun _ => .ok false } : World) with
          createStatus := failCompleted } runinfoPR =
      Run { worldOk with aclCheck := fun _ => .ok false } runinfoPR :=
  have hagree : ∀ (ri' : RunInfo) (status conclusion text url : String),
      status ≠ "completed" →
      failCompleted ri' status conclusion text url =
        ({ worldOk with aclCheck := fun _ => .ok false } : World).createStatus
          ri' status conclusion text url := by
    intro ri' status conclusion text url hne
    simp [failCompleted, worldOk, hne]
  ⟨hagree, by decide,
   Run_terminal_status_best_effort { worldOk with aclCheck := fun _ => .ok false }
     failCompleted runinfoPR hagree⟩

end PipelinesAsCode
